import Mathlib

/-!
Verification of the terminal-colorizer module `src/color/colored_term.py`.

The Python source is shallowly embedded:
* `ANSIColor.*` mirror the module-level escape-code constants.
* The Python `dict` `colors_used` (string-keyed, insertion-ordered, with all
  keys present from initialisation) is embedded as an association list
  `List (String × Nat)`; `dictIncr` models `d[k] += 1` for a present key and
  `dictGet` models `d[k]` lookup.
* The character loop of `ascii_color_chars` is embedded as a left fold
  (`scanLoop`) over the input's characters, threading the pair
  (accumulated colored text, histogram), exactly as the Python loop does.
* `build_color_stats` divides by the histogram total; Python raises
  `ZeroDivisionError` when the total is zero, which is embedded by returning
  `Option`: `none` models the raised exception.  Python's
  `int(count / total * 50)` (double-precision division, double-precision
  multiplication by `50.0`, truncation toward zero) is embedded exactly by
  `pyBar`, which performs both roundings to 53 bits (nearest, ties to
  even); this can differ from the exact floor `count * 50 / total`, e.g.
  `pyBar 29 50 = 28` while `29 * 50 / 50 = 29`.
* Methods that mutate `self` (`ascii_color_chars` via `build_color_stats`)
  are embedded by explicit state passing on the `ColorTerm` structure.
-/

namespace ANSIColor

def RED : String := "\x1b[31m"

def GREEN : String := "\x1b[32m"

def YELLOW : String := "\x1b[33m"

def BLUE : String := "\x1b[34m"

def MAGENTA : String := "\x1b[35m"

def CYAN : String := "\x1b[36m"

def RESET : String := "\x1b[0m"

end ANSIColor

/-- State of a `ColorTerm` instance: the `enabled` flag and the
`color_stats` report string, as set up in `__init__` (the best-effort
Windows VT100 activation performs no state change and is not modelled). -/
structure ColorTerm where
  enabled : Bool
  color_stats : String
deriving DecidableEq, Repr

/-- The state produced by `ColorTerm.__init__`. -/
def ColorTerm.init : ColorTerm := { enabled := false, color_stats := "" }

/-- `enable()`: sets the flag. -/
def ColorTerm.enable (self : ColorTerm) : ColorTerm :=
  { self with enabled := true }

/-- `disable()`: clears the flag. -/
def ColorTerm.disable (self : ColorTerm) : ColorTerm :=
  { self with enabled := false }

/-- Model of Python dict update `d[k] += 1` for a key already present:
the entry for `k` is incremented in place, insertion order preserved. -/
def dictIncr (d : List (String × Nat)) (k : String) : List (String × Nat) :=
  d.map (fun p => if p.1 = k then (p.1, p.2 + 1) else p)

/-- Model of Python dict lookup `d[k]` (defaulting to 0 off the key set,
which the embedded code never relies on). -/
def dictGet (d : List (String × Nat)) (k : String) : Nat :=
  ((d.find? (fun p => p.1 = k)).map (fun p => p.2)).getD 0

/-- The initial `colors_used` dictionary of `ascii_color_chars`, with its
Python insertion order: BLUE, RED, GREEN, MAGENTA, CYAN, RESET. -/
def initColorsUsed : List (String × Nat) :=
  [(ANSIColor.BLUE, 0), (ANSIColor.RED, 0), (ANSIColor.GREEN, 0),
   (ANSIColor.MAGENTA, 0), (ANSIColor.CYAN, 0), (ANSIColor.RESET, 0)]

/-- One iteration of the `for char in text` loop of `ascii_color_chars`:
the if/elif chain in source order, updating the accumulated colored text
and the `colors_used` histogram. -/
def scanStep (acc : String × List (String × Nat)) (char : Char) :
    String × List (String × Nat) :=
  let colored_text := acc.1
  let colors_used := acc.2
  if char = '3' then
    (colored_text ++ ANSIColor.BLUE ++ char.toString ++ ANSIColor.RESET,
     dictIncr colors_used ANSIColor.BLUE)
  else if char = '&' then
    (colored_text ++ ANSIColor.RED ++ char.toString ++ ANSIColor.RESET,
     dictIncr colors_used ANSIColor.RED)
  else if char = '=' then
    (colored_text ++ ANSIColor.GREEN ++ char.toString ++ ANSIColor.RESET,
     dictIncr colors_used ANSIColor.GREEN)
  else if char = '+' ∨ char = '*' then
    (colored_text ++ ANSIColor.MAGENTA ++ char.toString ++ ANSIColor.RESET,
     dictIncr colors_used ANSIColor.MAGENTA)
  else if char = '#' ∨ char = '?' then
    (colored_text ++ ANSIColor.CYAN ++ char.toString ++ ANSIColor.RESET,
     dictIncr colors_used ANSIColor.CYAN)
  else
    (colored_text ++ char.toString,
     if char ≠ ' ' then dictIncr colors_used ANSIColor.RESET else colors_used)

/-- The whole character loop of `ascii_color_chars`: folds `scanStep` over
the input characters starting from the empty colored text and the initial
histogram.  Its first component is the `colored_text` the method builds and
its second the `colors_used` histogram passed to `build_color_stats`. -/
def scanLoop (text : String) : String × List (String × Nat) :=
  text.data.foldl scanStep ("", initColorsUsed)

/-- `ColorTerm.colored_string` (a `@staticmethod`, reading no instance
state): `color + text + ANSIColor.RESET`. -/
def ColorTerm.colored_string (text : String) (color : String) : String :=
  color ++ text ++ ANSIColor.RESET

/-- Bit length of a natural number, by structural recursion on a fuel
argument (any `fuel ≥ bitLen n` gives the exact bit length; `bitLen`
passes `n` itself). -/
def bitLenAux : Nat → Nat → Nat
  | 0, _ => 0
  | fuel + 1, n => if n = 0 then 0 else bitLenAux fuel (n / 2) + 1

/-- Number of binary digits of `n` (0 for 0), so `bitLen n - 1` is the
floor base-2 logarithm of a positive `n`. -/
def bitLen (n : Nat) : Nat := bitLenAux n n

/-- Round `a / b` (for `b > 0`) to the nearest integer, ties to even. -/
def rne (a b : Nat) : Nat :=
  let q := a / b
  let r := a % b
  if 2 * r < b then q
  else if b < 2 * r then q + 1
  else if q % 2 = 0 then q else q + 1

/-- Correctly round the positive rational `num / den` to an IEEE-754
binary64 value: returns `(m, e)` with value `m * 2^e` and
`2^52 ≤ m < 2^53` (round to nearest, ties to even).  The exponent is
unbounded; this agrees with binary64 everywhere `pyBar` uses it, since
its values never overflow and subnormal intermediates truncate to a zero
bar either way. -/
def rnd53 (num den : Nat) : Nat × Int :=
  let a := bitLen num - 1
  let b := bitLen den - 1
  let geq : Bool := if b ≤ a then den <<< (a - b) ≤ num else den ≤ num <<< (b - a)
  let E : Int := if geq then (a : Int) - (b : Int) else (a : Int) - (b : Int) - 1
  let m :=
    if E ≤ 52 then rne (num <<< (52 - E).toNat) den
    else rne num (den <<< (E - 52).toNat)
  if m = 1 <<< 53 then (1 <<< 52, E - 51) else (m, E - 52)

/-- Python's `int(count / total * 50)` for `total > 0`, computed exactly
as CPython computes it: correctly rounded double division
`count / total`, correctly rounded double multiplication by the exact
double `50.0`, then truncation toward zero. -/
def pyBar (count total : Nat) : Nat :=
  if count = 0 then 0
  else
    let d := rnd53 count total
    let p := rnd53 (d.1 * 50) 1
    let e := p.2 + d.2
    if 0 ≤ e then p.1 <<< e.toNat else p.1 >>> (-e).toNat

/-- The local variable `total = sum(colors_used.values())` of
`build_color_stats`. -/
def histTotal (colors_used : List (String × Nat)) : Nat :=
  (colors_used.map (fun p => p.2)).sum

/-- `ColorTerm.build_color_stats`: sums the histogram values and builds the
report string (header, then for each dict entry in insertion order a
color-wrapped line break plus bar of `int(count / total * 50)` block
characters, the bar length being the double-precision computation
`pyBar`).  The division by `total` raises `ZeroDivisionError` in Python
when `total = 0`; that is modelled by `none`.  The result is the new value
of the `color_stats` field. -/
def ColorTerm.build_color_stats (colors_used : List (String × Nat)) :
    Option String :=
  if histTotal colors_used = 0 then none
  else some (colors_used.foldl
    (fun s p =>
      s ++ ColorTerm.colored_string
        ("\n" ++ String.mk
          (List.replicate (pyBar p.2 (histTotal colors_used)) '█')) p.1)
    "\n\n-------------------\nColor distribution in ASCII image:\n")

/-- `ColorTerm.ascii_color_chars`: when disabled, returns the input and the
unchanged state.  When enabled, runs the scan loop, then
`build_color_stats` (whose possible `ZeroDivisionError` propagates as
`none`), stores the report in `color_stats`, and returns the colored
text. -/
def ColorTerm.ascii_color_chars (self : ColorTerm) (text : String) :
    Option (String × ColorTerm) :=
  if self.enabled then
    match ColorTerm.build_color_stats (scanLoop text).2 with
    | none => none
    | some stats =>
      some ((scanLoop text).1, { self with color_stats := stats })
  else
    some (text, self)

/-- `ColorTerm.warning`: `self.YELLOW + text + self.RESET`. -/
def ColorTerm.warning (self : ColorTerm) (text : String) : String :=
  ANSIColor.YELLOW ++ text ++ ANSIColor.RESET

/-- `ColorTerm.error`: `self.RED + text + self.RESET`. -/
def ColorTerm.error (self : ColorTerm) (text : String) : String :=
  ANSIColor.RED ++ text ++ ANSIColor.RESET

/-- `ColorTerm.info`: `self.CYAN + text + self.RESET`. -/
def ColorTerm.info (self : ColorTerm) (text : String) : String :=
  ANSIColor.CYAN ++ text ++ ANSIColor.RESET

/-- `ColorTerm.success`: `self.GREEN + text + self.RESET`. -/
def ColorTerm.success (self : ColorTerm) (text : String) : String :=
  ANSIColor.GREEN ++ text ++ ANSIColor.RESET

/-! ## Specification-side definitions

These follow the wording of the specification's classification and
reporting rules, to be compared with the embedded source functions. -/

/-- Spec classification table (first match wins, in the stated priority
order): the color a character is wrapped in, or `none` for pass-through. -/
def charColorSpec (c : Char) : Option String :=
  if c = '3' then some ANSIColor.BLUE
  else if c = '&' then some ANSIColor.RED
  else if c = '=' then some ANSIColor.GREEN
  else if c = '+' ∨ c = '*' then some ANSIColor.MAGENTA
  else if c = '#' ∨ c = '?' then some ANSIColor.CYAN
  else none

/-- Spec rendering of one character: `color + char + reset` when
classified, the bare character otherwise. -/
def renderCharSpec (c : Char) : String :=
  match charColorSpec c with
  | some col => col ++ c.toString ++ ANSIColor.RESET
  | none => c.toString

/-- Spec histogram bucket of one character: its color when classified,
nothing for a space, and the Reset catch-all bucket otherwise. -/
def bucketSpec (c : Char) : Option String :=
  match charColorSpec c with
  | some col => some col
  | none => if c = ' ' then none else some ANSIColor.RESET

/-- Concatenation of the per-character spec renderings, in input order. -/
def renderAll : List Char → String
  | [] => ""
  | c :: cs => renderCharSpec c ++ renderAll cs

/-! ## Histogram-loop infrastructure -/

/-- The histogram component of one loop iteration (the same if/elif chain
as `scanStep`, acting on `colors_used` alone). -/
def histStep (d : List (String × Nat)) (char : Char) : List (String × Nat) :=
  if char = '3' then dictIncr d ANSIColor.BLUE
  else if char = '&' then dictIncr d ANSIColor.RED
  else if char = '=' then dictIncr d ANSIColor.GREEN
  else if char = '+' ∨ char = '*' then dictIncr d ANSIColor.MAGENTA
  else if char = '#' ∨ char = '?' then dictIncr d ANSIColor.CYAN
  else if char ≠ ' ' then dictIncr d ANSIColor.RESET else d

theorem scanStep_fst (p : String × List (String × Nat)) (c : Char) :
    (scanStep p c).1 = p.1 ++ renderCharSpec c := by
  simp only [scanStep, renderCharSpec, charColorSpec]
  split_ifs <;> simp [String.append_assoc]

theorem scanStep_snd (p : String × List (String × Nat)) (c : Char) :
    (scanStep p c).2 = histStep p.2 c := by
  simp only [scanStep, histStep]
  split_ifs <;> rfl

theorem foldl_scanStep_fst (cs : List Char) :
    ∀ p : String × List (String × Nat),
      (List.foldl scanStep p cs).1 = p.1 ++ renderAll cs := by
  induction cs with
  | nil => intro p; simp [renderAll]
  | cons c cs ih =>
    intro p
    rw [List.foldl_cons, ih, scanStep_fst, renderAll, String.append_assoc]

theorem foldl_scanStep_snd (cs : List Char) :
    ∀ p : String × List (String × Nat),
      (List.foldl scanStep p cs).2 = List.foldl histStep p.2 cs := by
  induction cs with
  | nil => intro p; rfl
  | cons c cs ih =>
    intro p
    rw [List.foldl_cons, ih, scanStep_snd, List.foldl_cons]

/-- Number of characters of a list that the spec assigns to bucket
`col`. -/
def bucketCount (col : String) : List Char → Nat
  | [] => 0
  | c :: cs => (if bucketSpec c = some col then 1 else 0) + bucketCount col cs

@[simp] theorem bucketSpec_three : bucketSpec '3' = some ANSIColor.BLUE := rfl

@[simp] theorem bucketSpec_amp : bucketSpec '&' = some ANSIColor.RED := rfl

@[simp] theorem bucketSpec_eqch : bucketSpec '=' = some ANSIColor.GREEN := rfl

@[simp] theorem bucketSpec_plus : bucketSpec '+' = some ANSIColor.MAGENTA := rfl

@[simp] theorem bucketSpec_star : bucketSpec '*' = some ANSIColor.MAGENTA := rfl

@[simp] theorem bucketSpec_hash : bucketSpec '#' = some ANSIColor.CYAN := rfl

@[simp] theorem bucketSpec_qmark : bucketSpec '?' = some ANSIColor.CYAN := rfl

@[simp] theorem bucketSpec_space : bucketSpec ' ' = none := rfl

theorem bucketSpec_other (c : Char) (h1 : c ≠ '3') (h2 : c ≠ '&')
    (h3 : c ≠ '=') (h4 : c ≠ '+') (h5 : c ≠ '*') (h6 : c ≠ '#')
    (h7 : c ≠ '?') (h8 : c ≠ ' ') : bucketSpec c = some ANSIColor.RESET := by
  simp [bucketSpec, charColorSpec, h1, h2, h3, h4, h5, h6, h7, h8]

theorem histStep_three (d : List (String × Nat)) :
    histStep d '3' = dictIncr d ANSIColor.BLUE := rfl

theorem histStep_amp (d : List (String × Nat)) :
    histStep d '&' = dictIncr d ANSIColor.RED := rfl

theorem histStep_eqch (d : List (String × Nat)) :
    histStep d '=' = dictIncr d ANSIColor.GREEN := rfl

theorem histStep_plus (d : List (String × Nat)) :
    histStep d '+' = dictIncr d ANSIColor.MAGENTA := rfl

theorem histStep_star (d : List (String × Nat)) :
    histStep d '*' = dictIncr d ANSIColor.MAGENTA := rfl

theorem histStep_hash (d : List (String × Nat)) :
    histStep d '#' = dictIncr d ANSIColor.CYAN := rfl

theorem histStep_qmark (d : List (String × Nat)) :
    histStep d '?' = dictIncr d ANSIColor.CYAN := rfl

theorem histStep_space (d : List (String × Nat)) :
    histStep d ' ' = d := rfl

theorem histStep_other (d : List (String × Nat)) (c : Char) (h1 : c ≠ '3')
    (h2 : c ≠ '&') (h3 : c ≠ '=') (h4 : c ≠ '+') (h5 : c ≠ '*')
    (h6 : c ≠ '#') (h7 : c ≠ '?') (h8 : c ≠ ' ') :
    histStep d c = dictIncr d ANSIColor.RESET := by
  simp [histStep, h1, h2, h3, h4, h5, h6, h7, h8]

theorem dictIncr_b (b r g m c0 s0 : Nat) :
    dictIncr
      [(ANSIColor.BLUE, b), (ANSIColor.RED, r), (ANSIColor.GREEN, g),
       (ANSIColor.MAGENTA, m), (ANSIColor.CYAN, c0), (ANSIColor.RESET, s0)]
      ANSIColor.BLUE
    = [(ANSIColor.BLUE, b + 1), (ANSIColor.RED, r), (ANSIColor.GREEN, g),
       (ANSIColor.MAGENTA, m), (ANSIColor.CYAN, c0), (ANSIColor.RESET, s0)] := rfl

theorem dictIncr_r (b r g m c0 s0 : Nat) :
    dictIncr
      [(ANSIColor.BLUE, b), (ANSIColor.RED, r), (ANSIColor.GREEN, g),
       (ANSIColor.MAGENTA, m), (ANSIColor.CYAN, c0), (ANSIColor.RESET, s0)]
      ANSIColor.RED
    = [(ANSIColor.BLUE, b), (ANSIColor.RED, r + 1), (ANSIColor.GREEN, g),
       (ANSIColor.MAGENTA, m), (ANSIColor.CYAN, c0), (ANSIColor.RESET, s0)] := rfl

theorem dictIncr_g (b r g m c0 s0 : Nat) :
    dictIncr
      [(ANSIColor.BLUE, b), (ANSIColor.RED, r), (ANSIColor.GREEN, g),
       (ANSIColor.MAGENTA, m), (ANSIColor.CYAN, c0), (ANSIColor.RESET, s0)]
      ANSIColor.GREEN
    = [(ANSIColor.BLUE, b), (ANSIColor.RED, r), (ANSIColor.GREEN, g + 1),
       (ANSIColor.MAGENTA, m), (ANSIColor.CYAN, c0), (ANSIColor.RESET, s0)] := rfl

theorem dictIncr_m (b r g m c0 s0 : Nat) :
    dictIncr
      [(ANSIColor.BLUE, b), (ANSIColor.RED, r), (ANSIColor.GREEN, g),
       (ANSIColor.MAGENTA, m), (ANSIColor.CYAN, c0), (ANSIColor.RESET, s0)]
      ANSIColor.MAGENTA
    = [(ANSIColor.BLUE, b), (ANSIColor.RED, r), (ANSIColor.GREEN, g),
       (ANSIColor.MAGENTA, m + 1), (ANSIColor.CYAN, c0), (ANSIColor.RESET, s0)] := rfl

theorem dictIncr_c (b r g m c0 s0 : Nat) :
    dictIncr
      [(ANSIColor.BLUE, b), (ANSIColor.RED, r), (ANSIColor.GREEN, g),
       (ANSIColor.MAGENTA, m), (ANSIColor.CYAN, c0), (ANSIColor.RESET, s0)]
      ANSIColor.CYAN
    = [(ANSIColor.BLUE, b), (ANSIColor.RED, r), (ANSIColor.GREEN, g),
       (ANSIColor.MAGENTA, m), (ANSIColor.CYAN, c0 + 1), (ANSIColor.RESET, s0)] := rfl

theorem dictIncr_s (b r g m c0 s0 : Nat) :
    dictIncr
      [(ANSIColor.BLUE, b), (ANSIColor.RED, r), (ANSIColor.GREEN, g),
       (ANSIColor.MAGENTA, m), (ANSIColor.CYAN, c0), (ANSIColor.RESET, s0)]
      ANSIColor.RESET
    = [(ANSIColor.BLUE, b), (ANSIColor.RED, r), (ANSIColor.GREEN, g),
       (ANSIColor.MAGENTA, m), (ANSIColor.CYAN, c0), (ANSIColor.RESET, s0 + 1)] := rfl

theorem foldl_histStep_shape (cs : List Char) :
    ∀ b r g m c0 s0 : Nat,
      List.foldl histStep
        [(ANSIColor.BLUE, b), (ANSIColor.RED, r), (ANSIColor.GREEN, g),
         (ANSIColor.MAGENTA, m), (ANSIColor.CYAN, c0), (ANSIColor.RESET, s0)] cs
      = [(ANSIColor.BLUE, b + bucketCount ANSIColor.BLUE cs),
         (ANSIColor.RED, r + bucketCount ANSIColor.RED cs),
         (ANSIColor.GREEN, g + bucketCount ANSIColor.GREEN cs),
         (ANSIColor.MAGENTA, m + bucketCount ANSIColor.MAGENTA cs),
         (ANSIColor.CYAN, c0 + bucketCount ANSIColor.CYAN cs),
         (ANSIColor.RESET, s0 + bucketCount ANSIColor.RESET cs)] := by
  induction cs with
  | nil => intro b r g m c0 s0; simp [bucketCount]
  | cons ch cs ih =>
    intro b r g m c0 s0
    rw [List.foldl_cons]
    by_cases h1 : ch = '3'
    · subst h1
      rw [histStep_three, dictIncr_b, ih]
      simp [bucketCount, ANSIColor.BLUE, ANSIColor.RED, ANSIColor.GREEN,
        ANSIColor.MAGENTA, ANSIColor.CYAN, ANSIColor.RESET, Nat.add_assoc]
    by_cases h2 : ch = '&'
    · subst h2
      rw [histStep_amp, dictIncr_r, ih]
      simp [bucketCount, ANSIColor.BLUE, ANSIColor.RED, ANSIColor.GREEN,
        ANSIColor.MAGENTA, ANSIColor.CYAN, ANSIColor.RESET, Nat.add_assoc]
    by_cases h3 : ch = '='
    · subst h3
      rw [histStep_eqch, dictIncr_g, ih]
      simp [bucketCount, ANSIColor.BLUE, ANSIColor.RED, ANSIColor.GREEN,
        ANSIColor.MAGENTA, ANSIColor.CYAN, ANSIColor.RESET, Nat.add_assoc]
    by_cases h4 : ch = '+'
    · subst h4
      rw [histStep_plus, dictIncr_m, ih]
      simp [bucketCount, ANSIColor.BLUE, ANSIColor.RED, ANSIColor.GREEN,
        ANSIColor.MAGENTA, ANSIColor.CYAN, ANSIColor.RESET, Nat.add_assoc]
    by_cases h5 : ch = '*'
    · subst h5
      rw [histStep_star, dictIncr_m, ih]
      simp [bucketCount, ANSIColor.BLUE, ANSIColor.RED, ANSIColor.GREEN,
        ANSIColor.MAGENTA, ANSIColor.CYAN, ANSIColor.RESET, Nat.add_assoc]
    by_cases h6 : ch = '#'
    · subst h6
      rw [histStep_hash, dictIncr_c, ih]
      simp [bucketCount, ANSIColor.BLUE, ANSIColor.RED, ANSIColor.GREEN,
        ANSIColor.MAGENTA, ANSIColor.CYAN, ANSIColor.RESET, Nat.add_assoc]
    by_cases h7 : ch = '?'
    · subst h7
      rw [histStep_qmark, dictIncr_c, ih]
      simp [bucketCount, ANSIColor.BLUE, ANSIColor.RED, ANSIColor.GREEN,
        ANSIColor.MAGENTA, ANSIColor.CYAN, ANSIColor.RESET, Nat.add_assoc]
    by_cases h8 : ch = ' '
    · subst h8
      rw [histStep_space, ih]
      simp [bucketCount, ANSIColor.BLUE, ANSIColor.RED, ANSIColor.GREEN,
        ANSIColor.MAGENTA, ANSIColor.CYAN, ANSIColor.RESET]
    · rw [histStep_other _ ch h1 h2 h3 h4 h5 h6 h7 h8, dictIncr_s, ih]
      simp [bucketCount, bucketSpec_other ch h1 h2 h3 h4 h5 h6 h7 h8,
        ANSIColor.BLUE, ANSIColor.RED, ANSIColor.GREEN,
        ANSIColor.MAGENTA, ANSIColor.CYAN, ANSIColor.RESET, Nat.add_assoc]

/-- The histogram built by the scan of `text`: explicit shape, keys in
insertion order, each count the number of characters in that bucket. -/
theorem scanLoop_hist (text : String) :
    (scanLoop text).2
    = [(ANSIColor.BLUE, bucketCount ANSIColor.BLUE text.data),
       (ANSIColor.RED, bucketCount ANSIColor.RED text.data),
       (ANSIColor.GREEN, bucketCount ANSIColor.GREEN text.data),
       (ANSIColor.MAGENTA, bucketCount ANSIColor.MAGENTA text.data),
       (ANSIColor.CYAN, bucketCount ANSIColor.CYAN text.data),
       (ANSIColor.RESET, bucketCount ANSIColor.RESET text.data)] := by
  rw [scanLoop, foldl_scanStep_snd]
  show List.foldl histStep initColorsUsed text.data = _
  rw [initColorsUsed, foldl_histStep_shape]
  simp

/-- The colored text built by the scan of `text` is the concatenation of
the per-character spec renderings in input order. -/
theorem scanLoop_text (text : String) :
    (scanLoop text).1 = renderAll text.data := by
  rw [scanLoop, foldl_scanStep_fst]
  show "" ++ renderAll text.data = _
  cases h : renderAll text.data with
  | mk l => rfl

/-! ## Stripping ANSI escape sequences

Formalisation of "removing all ANSI escape sequences": every maximal
subsequence of the form `ESC '[' <digits> 'm'` is deleted; all other
characters are kept. -/

/-- If `l` begins with the tail of an ANSI color escape (`'['`, digits,
`'m'`), the number of its characters; otherwise `none`. -/
def escLen (l : List Char) : Option Nat :=
  match l with
  | '[' :: rest =>
    match rest.drop (rest.takeWhile Char.isDigit).length with
    | 'm' :: _ => some ((rest.takeWhile Char.isDigit).length + 2)
    | _ => none
  | _ => none

/-- Remove every ANSI escape sequence `ESC '[' <digits> 'm'` from a
character list, keeping everything else. -/
def stripAnsi : List Char → List Char
  | [] => []
  | c :: rest =>
    if c = '\x1b' then
      match escLen rest with
      | some n => stripAnsi (rest.drop n)
      | none => c :: stripAnsi rest
    else c :: stripAnsi rest
termination_by l => l.length
decreasing_by
  all_goals simp_wf
  all_goals omega

/-- String-level version of `stripAnsi`. -/
def stripAnsiS (s : String) : String := String.mk (stripAnsi s.data)

theorem stripAnsi_cons_ne (c : Char) (rest : List Char) (h : c ≠ '\x1b') :
    stripAnsi (c :: rest) = c :: stripAnsi rest := by
  rw [stripAnsi.eq_def]
  simp [h]

theorem stripAnsi_esc (rest : List Char) (n : Nat) (h : escLen rest = some n) :
    stripAnsi ('\x1b' :: rest) = stripAnsi (rest.drop n) := by
  rw [stripAnsi.eq_def]
  simp [h]

theorem escLen_two (a b : Char) (rest : List Char) (ha : a.isDigit = true)
    (hb : b.isDigit = true) :
    escLen ('[' :: a :: b :: 'm' :: rest) = some 4 := by
  simp [escLen, List.takeWhile, ha, hb, show ('m').isDigit = false from rfl]

theorem escLen_reset (rest : List Char) :
    escLen ('[' :: '0' :: 'm' :: rest) = some 3 := rfl

/-- Stripping one spec-wrapped colored character `ESC[abm ch ESC[0m`
recovers `ch`. -/
theorem stripAnsi_wrap (a b ch : Char) (l : List Char)
    (ha : a.isDigit = true) (hb : b.isDigit = true) (hch : ch ≠ '\x1b') :
    stripAnsi ('\x1b' :: '[' :: a :: b :: 'm' :: ch :: '\x1b' :: '[' :: '0'
      :: 'm' :: l)
    = ch :: stripAnsi l := by
  rw [stripAnsi_esc _ 4 (escLen_two a b _ ha hb)]
  show stripAnsi (ch :: ('\x1b' :: '[' :: '0' :: 'm' :: l)) = ch :: stripAnsi l
  rw [stripAnsi_cons_ne _ _ hch, stripAnsi_esc _ 3 (escLen_reset l)]
  rfl

theorem stripAnsi_nil : stripAnsi [] = [] := by
  rw [stripAnsi.eq_def]

theorem stripAnsi_renderChar (c : Char) (h : c ≠ '\x1b') (l : List Char) :
    stripAnsi ((renderCharSpec c).data ++ l) = c :: stripAnsi l := by
  by_cases h1 : c = '3'
  · subst h1
    exact stripAnsi_wrap '3' '4' '3' l (by decide) (by decide) (by decide)
  by_cases h2 : c = '&'
  · subst h2
    exact stripAnsi_wrap '3' '1' '&' l (by decide) (by decide) (by decide)
  by_cases h3 : c = '='
  · subst h3
    exact stripAnsi_wrap '3' '2' '=' l (by decide) (by decide) (by decide)
  by_cases h4 : c = '+'
  · subst h4
    exact stripAnsi_wrap '3' '5' '+' l (by decide) (by decide) (by decide)
  by_cases h5 : c = '*'
  · subst h5
    exact stripAnsi_wrap '3' '5' '*' l (by decide) (by decide) (by decide)
  by_cases h6 : c = '#'
  · subst h6
    exact stripAnsi_wrap '3' '6' '#' l (by decide) (by decide) (by decide)
  by_cases h7 : c = '?'
  · subst h7
    exact stripAnsi_wrap '3' '6' '?' l (by decide) (by decide) (by decide)
  · have hcc : charColorSpec c = none := by
      simp [charColorSpec, h1, h2, h3, h4, h5, h6, h7]
    have hrc : (renderCharSpec c).data = [c] := by
      simp [renderCharSpec, hcc]
      rfl
    rw [hrc]
    exact stripAnsi_cons_ne c l h

theorem stripAnsi_renderAll (cs : List Char) (h : ∀ c ∈ cs, c ≠ '\x1b') :
    stripAnsi ((renderAll cs).data) = cs := by
  induction cs with
  | nil => exact stripAnsi_nil
  | cons c cs ih =>
    rw [renderAll, String.data_append,
      stripAnsi_renderChar c (h c (List.mem_cons_self c cs)) _,
      ih (fun x hx => h x (List.mem_cons_of_mem c hx))]

/-! ## Histogram totals -/

theorem bucketCount_total (cs : List Char) :
    bucketCount ANSIColor.BLUE cs + bucketCount ANSIColor.RED cs
      + bucketCount ANSIColor.GREEN cs + bucketCount ANSIColor.MAGENTA cs
      + bucketCount ANSIColor.CYAN cs + bucketCount ANSIColor.RESET cs
      + List.countP (fun c => c = ' ') cs
    = cs.length := by
  induction cs with
  | nil => rfl
  | cons ch cs ih =>
    simp only [bucketCount, List.countP_cons, List.length_cons]
    by_cases h1 : ch = '3'
    · subst h1
      simp [ANSIColor.BLUE, ANSIColor.RED, ANSIColor.GREEN,
        ANSIColor.MAGENTA, ANSIColor.CYAN, ANSIColor.RESET] at ih ⊢
      omega
    by_cases h2 : ch = '&'
    · subst h2
      simp [ANSIColor.BLUE, ANSIColor.RED, ANSIColor.GREEN,
        ANSIColor.MAGENTA, ANSIColor.CYAN, ANSIColor.RESET] at ih ⊢
      omega
    by_cases h3 : ch = '='
    · subst h3
      simp [ANSIColor.BLUE, ANSIColor.RED, ANSIColor.GREEN,
        ANSIColor.MAGENTA, ANSIColor.CYAN, ANSIColor.RESET] at ih ⊢
      omega
    by_cases h4 : ch = '+'
    · subst h4
      simp [ANSIColor.BLUE, ANSIColor.RED, ANSIColor.GREEN,
        ANSIColor.MAGENTA, ANSIColor.CYAN, ANSIColor.RESET] at ih ⊢
      omega
    by_cases h5 : ch = '*'
    · subst h5
      simp [ANSIColor.BLUE, ANSIColor.RED, ANSIColor.GREEN,
        ANSIColor.MAGENTA, ANSIColor.CYAN, ANSIColor.RESET] at ih ⊢
      omega
    by_cases h6 : ch = '#'
    · subst h6
      simp [ANSIColor.BLUE, ANSIColor.RED, ANSIColor.GREEN,
        ANSIColor.MAGENTA, ANSIColor.CYAN, ANSIColor.RESET] at ih ⊢
      omega
    by_cases h7 : ch = '?'
    · subst h7
      simp [ANSIColor.BLUE, ANSIColor.RED, ANSIColor.GREEN,
        ANSIColor.MAGENTA, ANSIColor.CYAN, ANSIColor.RESET] at ih ⊢
      omega
    by_cases h8 : ch = ' '
    · subst h8
      simp at ih ⊢
      omega
    · rw [bucketSpec_other ch h1 h2 h3 h4 h5 h6 h7 h8]
      simp [h8, ANSIColor.BLUE, ANSIColor.RED, ANSIColor.GREEN,
        ANSIColor.MAGENTA, ANSIColor.CYAN, ANSIColor.RESET] at ih ⊢
      omega

/-- With at least one non-space character, the histogram total of the scan
is positive. -/
theorem scan_total_pos (text : String) (hc : ∃ c ∈ text.data, c ≠ ' ') :
    0 < (((scanLoop text).2).map Prod.snd).sum := by
  rw [scanLoop_hist]
  simp only [List.map_cons, List.map_nil, List.sum_cons, List.sum_nil]
  have h := bucketCount_total text.data
  obtain ⟨c, hmem, hne⟩ := hc
  have hlt : List.countP (fun c => c = ' ') text.data < text.data.length := by
    apply lt_of_le_of_ne (List.countP_le_length _)
    intro heq
    have hall := List.countP_eq_length.mp heq c hmem
    simp at hall
    exact hne hall
  omega

/-! ## Report order: specification-side report builders -/

/-- The distribution report as the claim words it: same header, same
zero-total failure, same per-color line, but iterating the colors in the
Color enumeration order of the specification's section 3:
Red, Green, Yellow, Blue, Magenta, Cyan, Reset. -/
def build_color_stats_claim (colors_used : List (String × Nat)) :
    Option String :=
  if histTotal colors_used = 0 then none
  else some (([ANSIColor.RED, ANSIColor.GREEN, ANSIColor.YELLOW,
      ANSIColor.BLUE, ANSIColor.MAGENTA, ANSIColor.CYAN,
      ANSIColor.RESET]).foldl
    (fun s col =>
      s ++ ColorTerm.colored_string
        ("\n" ++ String.mk
          (List.replicate
            (dictGet colors_used col * 50 / histTotal colors_used) '█')) col)
    "\n\n-------------------\nColor distribution in ASCII image:\n")

/-- The distribution report as amended: iterating the colors in the
histogram's actual (insertion) order Blue, Red, Green, Magenta, Cyan,
Reset, with each bar of length `int(count / total * 50)` computed in
double-precision arithmetic (`pyBar`), as the program computes it. -/
def build_color_stats_order (colors_used : List (String × Nat)) :
    Option String :=
  if histTotal colors_used = 0 then none
  else some (([ANSIColor.BLUE, ANSIColor.RED, ANSIColor.GREEN,
      ANSIColor.MAGENTA, ANSIColor.CYAN, ANSIColor.RESET]).foldl
    (fun s col =>
      s ++ ColorTerm.colored_string
        ("\n" ++ String.mk
          (List.replicate
            (pyBar (dictGet colors_used col) (histTotal colors_used)) '█'))
        col)
    "\n\n-------------------\nColor distribution in ASCII image:\n")

/-- On a histogram of the shape the scan always produces, the source's
report builder agrees with the insertion-order spec builder. -/
theorem build_eq_order (b r g m c0 s0 : Nat) :
    ColorTerm.build_color_stats
      [(ANSIColor.BLUE, b), (ANSIColor.RED, r), (ANSIColor.GREEN, g),
       (ANSIColor.MAGENTA, m), (ANSIColor.CYAN, c0), (ANSIColor.RESET, s0)]
    = build_color_stats_order
      [(ANSIColor.BLUE, b), (ANSIColor.RED, r), (ANSIColor.GREEN, g),
       (ANSIColor.MAGENTA, m), (ANSIColor.CYAN, c0), (ANSIColor.RESET, s0)] := by
  simp only [ColorTerm.build_color_stats, build_color_stats_order, histTotal,
    dictGet, List.find?, List.foldl, List.map, List.sum_cons, List.sum_nil]
  rfl

/-! ## Claim theorems -/

/-- C4: for every string `text` (including the empty string) and every
defined color constant `C`, `colored_string text C` returns exactly
`C ++ text ++ RESET`; being a static method it takes no instance state, so
the result is independent of the enabled flag and of any colorizer
state. -/
theorem colored_string_spec (text color : String)
    (h : color ∈ [ANSIColor.RED, ANSIColor.GREEN, ANSIColor.YELLOW,
      ANSIColor.BLUE, ANSIColor.MAGENTA, ANSIColor.CYAN, ANSIColor.RESET]) :
    ColorTerm.colored_string text color = color ++ text ++ ANSIColor.RESET :=
  rfl

theorem colored_string_spec_witness :
    ColorTerm.colored_string "" ANSIColor.RED
      = ANSIColor.RED ++ "" ++ ANSIColor.RESET :=
  colored_string_spec "" ANSIColor.RED (by simp)

/-- C5: when the colorizer is disabled, `ascii_color_chars` returns the
input unchanged together with the untouched state (so the stored
`color_stats` report is unmodified), and no error occurs. -/
theorem disabled_identity (st : ColorTerm) (text : String)
    (h : st.enabled = false) :
    st.ascii_color_chars text = some (text, st) := by
  simp [ColorTerm.ascii_color_chars, h]

theorem disabled_identity_witness :
    ColorTerm.ascii_color_chars ⟨false, "kept"⟩ "3&= x"
      = some ("3&= x", ⟨false, "kept"⟩) :=
  disabled_identity ⟨false, "kept"⟩ "3&= x" rfl

/-- C9: `warning`, `error`, `info` and `success` equal `colored_string`
with Yellow, Red, Cyan and Green respectively, for every state (so in
particular regardless of the enabled/disabled flag). -/
theorem semantic_wrappers (st : ColorTerm) (text : String) :
    st.warning text = ColorTerm.colored_string text ANSIColor.YELLOW ∧
    st.error text = ColorTerm.colored_string text ANSIColor.RED ∧
    st.info text = ColorTerm.colored_string text ANSIColor.CYAN ∧
    st.success text = ColorTerm.colored_string text ANSIColor.GREEN :=
  ⟨rfl, rfl, rfl, rfl⟩

/-- C1: when enabled, the scan classifies every character by the fixed
first-match priority rule (`charColorSpec`), wraps each classified
character individually as color + char + reset and concatenates in input
order (`renderAll`), and counts every character in its spec bucket
(`bucketSpec`: spaces uncounted, unclassified characters under Reset):
the returned colored text is `renderAll text.data`, and each histogram
entry equals the corresponding bucket count. -/
theorem ascii_color_chars_classification (st : ColorTerm) (text : String)
    (he : st.enabled = true) :
    (∀ out st2, st.ascii_color_chars text = some (out, st2) →
      out = renderAll text.data) ∧
    (∀ col, col ∈ [ANSIColor.BLUE, ANSIColor.RED, ANSIColor.GREEN,
        ANSIColor.MAGENTA, ANSIColor.CYAN, ANSIColor.RESET] →
      dictGet (scanLoop text).2 col = bucketCount col text.data) := by
  constructor
  · intro out st2 h
    rw [ColorTerm.ascii_color_chars, if_pos he] at h
    rcases hb : ColorTerm.build_color_stats (scanLoop text).2 with _ | stats <;>
      rw [hb] at h
    · exact absurd h (by simp)
    · simp only [Option.some.injEq, Prod.mk.injEq] at h
      rw [← h.1, scanLoop_text]
  · intro col hcol
    rw [scanLoop_hist]
    simp only [List.mem_cons, List.mem_singleton, List.not_mem_nil,
      or_false] at hcol
    rcases hcol with rfl | rfl | rfl | rfl | rfl | rfl <;> rfl

theorem ascii_color_chars_classification_witness :
    ColorTerm.enabled ⟨true, ""⟩ = true ∧
    dictGet (scanLoop "3& *").2 ANSIColor.BLUE
      = bucketCount ANSIColor.BLUE ("3& *".data) ∧
    bucketCount ANSIColor.BLUE ("3& *".data) = 1 :=
  ⟨rfl,
   (ascii_color_chars_classification ⟨true, ""⟩ "3& *" rfl).2
     ANSIColor.BLUE (by simp),
   by decide⟩

/-- C7 counterexample: the scan of `"a"` runs while enabled (its result is
not `none`), yet the histogram it passes to the report builder has no
Yellow key, so the key set is not the full Color set the claim states. -/
theorem histogram_yellow_missing_cex :
    ColorTerm.ascii_color_chars ⟨true, ""⟩ "a" ≠ none ∧
    ANSIColor.YELLOW ∉ ((scanLoop "a").2).map Prod.fst := by
  decide

/-- C7 amended: for every scanned input, the histogram's key list is
exactly Blue, Red, Green, Magenta, Cyan, Reset (insertion order) — the
full Color set minus Yellow — with Reset the catch-all bucket for
unclassified non-space characters. -/
theorem histogram_key_set (text : String) :
    ((scanLoop text).2).map Prod.fst
    = [ANSIColor.BLUE, ANSIColor.RED, ANSIColor.GREEN,
       ANSIColor.MAGENTA, ANSIColor.CYAN, ANSIColor.RESET] := by
  rw [scanLoop_hist]
  rfl

/-- C8: the histogram counts (non-negative by type) sum to the length of
the input minus its number of space characters. -/
theorem histogram_sum (text : String) :
    (((scanLoop text).2).map Prod.snd).sum
    = text.length - List.countP (fun c => c = ' ') text.data := by
  rw [scanLoop_hist]
  simp only [List.map_cons, List.map_nil, List.sum_cons, List.sum_nil]
  have h := bucketCount_total text.data
  have hl : text.length = text.data.length := rfl
  omega

/-- A positive histogram total means `build_color_stats` succeeds. -/
theorem build_some_of_pos (d : List (String × Nat))
    (h : 0 < (d.map (fun p => p.2)).sum) :
    ∃ w, ColorTerm.build_color_stats d = some w := by
  unfold ColorTerm.build_color_stats
  rw [if_neg]
  · exact ⟨_, rfl⟩
  · have he : histTotal d = (d.map (fun p => p.2)).sum := rfl
    omega

theorem bucketCount_all_space (col : String) (cs : List Char)
    (h : ∀ c ∈ cs, c = ' ') : bucketCount col cs = 0 := by
  induction cs with
  | nil => rfl
  | cons c cs ih =>
    have hc := h c (List.mem_cons_self c cs)
    subst hc
    simp only [bucketCount, bucketSpec_space]
    simp [ih (fun x hx => h x (List.mem_cons_of_mem _ hx))]

theorem renderAll_all_space (cs : List Char) (h : ∀ c ∈ cs, c = ' ') :
    renderAll cs = String.mk cs := by
  induction cs with
  | nil => rfl
  | cons c cs ih =>
    have hc := h c (List.mem_cons_self c cs)
    subst hc
    rw [renderAll, ih (fun x hx => h x (List.mem_cons_of_mem _ hx))]
    rfl

/-- C3 counterexample: scanning the two-space input while enabled does not
complete — the division by the zero histogram total in `build_color_stats`
raises (modelled by `none`), contradicting the claim that report
generation completes without error. -/
theorem zero_total_no_crash_cex :
    ColorTerm.ascii_color_chars ⟨true, ""⟩ "  " = none := by decide

/-- C3 amended: for every input with no non-space characters, the enabled
scan reaches `build_color_stats` with histogram total 0 and raises
`ZeroDivisionError` (the call returns no value, modelled by `none`);
the colored text assembled before the failure is the unchanged input. -/
theorem zero_total_raises (st : ColorTerm) (text : String)
    (he : st.enabled = true) (hsp : ∀ c ∈ text.data, c = ' ') :
    st.ascii_color_chars text = none ∧ (scanLoop text).1 = text := by
  have hsum : (((scanLoop text).2).map Prod.snd).sum = 0 := by
    rw [scanLoop_hist]
    simp [bucketCount_all_space _ _ hsp]
  have hb : ColorTerm.build_color_stats (scanLoop text).2 = none := by
    unfold ColorTerm.build_color_stats
    rw [if_pos]
    have he2 : histTotal (scanLoop text).2
        = (((scanLoop text).2).map Prod.snd).sum := rfl
    omega
  constructor
  · rw [ColorTerm.ascii_color_chars, if_pos he, hb]
  · rw [scanLoop_text, renderAll_all_space _ hsp]

theorem zero_total_raises_witness :
    ColorTerm.ascii_color_chars ⟨true, ""⟩ " " = none ∧
    (scanLoop " ").1 = " " :=
  zero_total_raises ⟨true, ""⟩ " " rfl (by decide)

/-- C10: when enabled on an input with at least one non-space character,
the histogram total is strictly positive, the zero-division branch of
`build_color_stats` is unreachable, and `ascii_color_chars` completes
with a result. -/
theorem nonspace_no_crash (st : ColorTerm) (text : String)
    (he : st.enabled = true) (hc : ∃ c ∈ text.data, c ≠ ' ') :
    0 < (((scanLoop text).2).map Prod.snd).sum ∧
    ∃ out st2, st.ascii_color_chars text = some (out, st2) := by
  have hpos := scan_total_pos text hc
  refine ⟨hpos, ?_⟩
  obtain ⟨w, hw⟩ := build_some_of_pos _ hpos
  refine ⟨(scanLoop text).1, { st with color_stats := w }, ?_⟩
  rw [ColorTerm.ascii_color_chars, if_pos he, hw]

theorem nonspace_no_crash_witness :
    0 < (((scanLoop "a").2).map Prod.snd).sum ∧
    ColorTerm.ascii_color_chars ⟨true, ""⟩ "a" ≠ none := by
  have h := nonspace_no_crash ⟨true, ""⟩ "a" rfl ⟨'a', by decide, by decide⟩
  refine ⟨h.1, ?_⟩
  obtain ⟨out, st2, hh⟩ := h.2
  simp [hh]

/-- C6 counterexample: after the enabled scan of 29 `'3'`s and 21 `'a'`s
(Blue count 29, total 50), the stored report is not the one the claim
describes, in two ways: the code iterates the histogram's insertion order
Blue, Red, Green, Magenta, Cyan, Reset (not the section-3 enumeration
order, and with no Yellow line), and the Blue bar has
`int(29 / 50 * 50) = 28` blocks under Python's double-precision
arithmetic where the claim's `floor(count / total * 50)` gives 29. -/
theorem report_claim_order_cex :
    (ColorTerm.ascii_color_chars ⟨true, ""⟩
          "33333333333333333333333333333aaaaaaaaaaaaaaaaaaaaa").map
        (fun r => r.2.color_stats)
      ≠ build_color_stats_claim
          (scanLoop "33333333333333333333333333333aaaaaaaaaaaaaaaaaaaaa").2 ∧
    pyBar 29 50 = 28 ∧ 29 * 50 / 50 = 29 := by
  decide

/-- C6 amended: for every enabled scan with at least one non-space
character, the report consists of the fixed header followed, for each
color in the histogram's insertion order Blue, Red, Green, Magenta, Cyan,
Reset, by a color-wrapped line break and bar of `int(count / total * 50)`
filled-block characters computed in double-precision floating point
(`pyBar`, which can fall one short of the exact
`floor(count * 50 / total)`), as `build_color_stats_order` states, and
this report is stored in `color_stats`, overwriting the previously stored
value. -/
theorem report_insertion_order (st : ColorTerm) (text : String)
    (he : st.enabled = true) (hc : ∃ c ∈ text.data, c ≠ ' ') :
    ∃ rep, build_color_stats_order (scanLoop text).2 = some rep ∧
      st.ascii_color_chars text
        = some ((scanLoop text).1, { st with color_stats := rep }) := by
  have hpos := scan_total_pos text hc
  obtain ⟨w, hw⟩ := build_some_of_pos _ hpos
  have heq : ColorTerm.build_color_stats (scanLoop text).2
      = build_color_stats_order (scanLoop text).2 := by
    rw [scanLoop_hist]
    exact build_eq_order _ _ _ _ _ _
  refine ⟨w, by rw [← heq, hw], ?_⟩
  rw [ColorTerm.ascii_color_chars, if_pos he, hw]

theorem report_insertion_order_witness :
    (ColorTerm.ascii_color_chars ⟨true, "old"⟩ "a").map
        (fun r => some r.2.color_stats)
      = some (build_color_stats_order (scanLoop "a").2) := by
  obtain ⟨rep, h1, h2⟩ :=
    report_insertion_order ⟨true, "old"⟩ "a" rfl ⟨'a', by decide, by decide⟩
  rw [h2, h1]
  rfl

/-- C2 counterexample: for the input `"\x1b[0m"` — which itself consists
of an ANSI escape sequence — the enabled scan passes every character
through uncolored, and removing all ANSI escape sequences from the output
yields the empty string, not the original input: the round trip fails. -/
theorem strip_roundtrip_cex :
    (ColorTerm.ascii_color_chars ⟨true, ""⟩ "\x1b[0m").map
        (fun r => stripAnsiS r.1)
      = some "" ∧ ("" : String) ≠ "\x1b[0m" := by
  constructor
  · obtain ⟨w, hw⟩ := build_some_of_pos ((scanLoop "\x1b[0m").2) (by decide)
    rw [ColorTerm.ascii_color_chars, if_pos rfl, hw]
    show some (stripAnsiS (scanLoop "\x1b[0m").1) = some ""
    have hstrip : stripAnsi ('\x1b' :: '[' :: '0' :: 'm' :: []) = [] := by
      rw [stripAnsi_esc _ 3 (escLen_reset [])]
      exact stripAnsi_nil
    show some (String.mk (stripAnsi ('\x1b' :: '[' :: '0' :: 'm' :: []))) = _
    rw [hstrip]
  · decide

/-- C2 amended: for every input containing no ESC character, stripping all
ANSI escape sequences from the enabled scan's output reproduces the
original input exactly. -/
theorem strip_roundtrip_esc_free (text : String)
    (h : ∀ c ∈ text.data, c ≠ '\x1b') :
    stripAnsiS (scanLoop text).1 = text ∧
    (∀ (st : ColorTerm) out st2, st.enabled = true →
      st.ascii_color_chars text = some (out, st2) →
      stripAnsiS out = text) := by
  have h1 : stripAnsiS (scanLoop text).1 = text := by
    rw [scanLoop_text, stripAnsiS, stripAnsi_renderAll text.data h]
  refine ⟨h1, ?_⟩
  intro st out st2 he hs
  rw [ColorTerm.ascii_color_chars, if_pos he] at hs
  rcases hb : ColorTerm.build_color_stats (scanLoop text).2 with _ | stats <;>
    rw [hb] at hs
  · exact absurd hs (by simp)
  · simp only [Option.some.injEq, Prod.mk.injEq] at hs
    rw [← hs.1]
    exact h1

theorem strip_roundtrip_esc_free_witness :
    stripAnsiS (scanLoop "3&=+*#?").1 = "3&=+*#?" :=
  (strip_roundtrip_esc_free "3&=+*#?" (by decide)).1
